import Mathlib

/-!
# dart-backend: the hiking / observation handlers of `main.go`

A shallow embedding of the ten gin handlers of `main.go` together with the
parts of their environment they call into:

* `primitive.ObjectID`, `ObjectIDFromHex`, `ObjectID.Hex`, `ObjectID.UnmarshalJSON`
  (mongo-driver v1, package `bson/primitive`);
* `c.BindJSON` (gin over `encoding/json`) for the two structs `Hiking` and
  `Observation`;
* the five collection calls `InsertOne`, `Find` / `cursor.All`, `FindOne`,
  `UpdateOne` with `$set`, `DeleteOne` on a collection with its unique `_id` index.

Strings are Lean strings (Go's `len` is `String.utf8ByteSize`), Go's `int` is a
64-bit integer held in `Int`, an `ObjectID` (twelve bytes) is the big-endian
number of its bytes.  The text of an error (`err.Error()`) is not modelled:
an error payload carries the kind of the error only.  A Go slice is `nil` or holds
its elements (`Slice`).  A response body is the Go value handed to `c.JSON`, and
`Payload.json` is the JSON value `json.Marshal` writes for it, a nil slice being
written as `null`.  A collection holds documents of the shape of its struct, in
the order the store returns them.

The file has the definitions first (the environment, the two structs, the store,
the ten handlers, the notions the statements use, sample requests), then the
lemmas, then one theorem for each property of the interface.
-/

namespace DartBackend

/-! ## primitive.ObjectID -/

/-- The type `primitive.ObjectID` (`[12]byte`), as the big-endian number of its bytes. -/
abbrev ObjectID := Fin (2 ^ 96)

/-- The value `primitive.NilObjectID`, the zero value of the type. -/
def NilObjectID : ObjectID := 0

/-- Kinds of error a handler can put into `gin.H{"error": err.Error()}`. -/
inductive Err where
  /-- The error `primitive.ErrInvalidHex`, and the errors of `hex.Decode`. -/
  | invalidHex
  /-- Any error of `c.BindJSON`: syntax error, type mismatch, bad `_id`. -/
  | bind
  /-- The error `mongo.ErrNoDocuments` of `FindOne(...).Decode`. -/
  | noDocuments
  /-- The duplicate key write error (E11000) of the `_id` index. -/
  | duplicateKey
  /-- The write error of an update that would change the immutable field `_id`. -/
  | immutableField
  /-- The driver call failed by itself: no connection, context deadline exceeded. -/
  | driver
  deriving DecidableEq, Repr

/-- The function `fromHexChar` of `encoding/hex`: the value of one hexadecimal digit. -/
def fromHexChar (c : Char) : Option Nat :=
  if 48 ≤ c.toNat ∧ c.toNat ≤ 57 then some (c.toNat - 48)
  else if 97 ≤ c.toNat ∧ c.toNat ≤ 102 then some (c.toNat - 87)
  else if 65 ≤ c.toNat ∧ c.toNat ≤ 70 then some (c.toNat - 55)
  else none

/-- The loop of `hex.Decode`, read as a number: digits left to right, most significant first. -/
def hexValue (acc : Nat) : List Char → Option Nat
  | [] => some acc
  | c :: cs =>
    match fromHexChar c with
    | none => none
    | some d => hexValue (acc * 16 + d) cs

/-- The function `primitive.ObjectIDFromHex`: the length test `len(s) != 24` on the
bytes of the string, then `hex.Decode` of its twenty-four digits. -/
def ObjectIDFromHex (s : String) : Except Err ObjectID :=
  if s.utf8ByteSize ≠ 24 then .error .invalidHex
  else
    match hexValue 0 s.data with
    | none => .error .invalidHex
    | some n => .ok ⟨n % 2 ^ 96, Nat.mod_lt _ (by decide)⟩

/-- One digit of the table `"0123456789abcdef"` of `encoding/hex`. -/
def hexDigit (d : Nat) : Char :=
  if d < 10 then Char.ofNat (48 + d) else Char.ofNat (87 + d)

/-- The lowest `k` hexadecimal digits of `n`, most significant first. -/
def hexDigits : Nat → Nat → List Char
  | 0, _ => []
  | k + 1, n => hexDigits k (n / 16) ++ [hexDigit (n % 16)]

/-- The method `ObjectID.Hex`: the twenty-four lower-case digits of the identifier,
the form in which a response carries `_id`. -/
def ObjectID.Hex (id : ObjectID) : String :=
  String.mk (hexDigits 24 id.val)

/-- A hexadecimal digit, of either case. -/
def isHexDigit (c : Char) : Bool :=
  ('0' ≤ c && c ≤ '9') || ('a' ≤ c && c ≤ 'f') || ('A' ≤ c && c ≤ 'F')

/-- A well-formed path identifier in the words of the interface: a string of
twenty-four characters, each a hexadecimal digit. -/
def isHex24 (s : String) : Prop :=
  s.length = 24 ∧ ∀ c ∈ s.data, isHexDigit c = true

instance (s : String) : Decidable (isHex24 s) :=
  inferInstanceAs (Decidable (s.length = 24 ∧ ∀ c ∈ s.data, isHexDigit c = true))

deriving instance DecidableEq for Except

/-! ## Request bodies -/

/-- A JSON value as `encoding/json` scans it.  A number is kept as the integer it
denotes when its literal has neither fraction nor exponent, and as its text otherwise. -/
inductive JSON where
  | null
  | bool (b : Bool)
  | int (n : Int)
  | real (lit : String)
  | str (s : String)
  | arr (xs : List JSON)
  | obj (kvs : List (String × JSON))

/-- One member of the top-level object of a body.  `raw12` is the text of the value
read as twelve raw bytes when that text is exactly twelve bytes long: the first
case of `ObjectID.UnmarshalJSON` copies it. -/
structure Member where
  key : String
  value : JSON
  raw12 : Option ObjectID

/-- What `json.NewDecoder(body).Decode` finds at the start of a request body. -/
inductive Body where
  /-- No JSON value can be read: empty body, syntax error. -/
  | malformed
  /-- The literal `null`. -/
  | null
  /-- A value that is neither `null` nor an object: a boolean, a number, a string
  or an array. -/
  | other
  /-- An object, its members in the order of the text. -/
  | object (ms : List Member)

/-- Simple case folding of one rune onto the lower-case ASCII letters: besides
`A`..`Z` only the Kelvin sign (U+212A) and the long s (U+017F) fold onto one. -/
def foldRune (c : Char) : Char :=
  if 65 ≤ c.toNat ∧ c.toNat ≤ 90 then Char.ofNat (c.toNat + 32)
  else if c.toNat = 0x212A then 'k'
  else if c.toNat = 0x17F then 's'
  else c

/-- A key folded rune by rune; `encoding/json` pairs a key with the struct field whose
(lower-case) name it equals under case folding. -/
def foldName (key : String) : String :=
  String.mk (key.data.map foldRune)

/-- The last value stored under `k` in a JSON object (a Go map keeps the last one). -/
def lookupLast (k : String) : List (String × JSON) → Option JSON
  | [] => none
  | (k', v) :: rest =>
    match lookupLast k rest with
    | some w => some w
    | none => if k' = k then some v else none

/-- The tail of `ObjectID.UnmarshalJSON`, on the string found: the empty string
decodes to `NilObjectID`, any other string must be twenty-four hexadecimal digits. -/
def oidOfString (s : String) : Except Err ObjectID :=
  if s.utf8ByteSize = 0 then .ok NilObjectID
  else
    match ObjectIDFromHex s with
    | .ok id => .ok id
    | .error _ => .error .bind

/-- The method `ObjectID.UnmarshalJSON` on the value of a member, `old` being the
field before the call: `null` leaves it, a value of twelve bytes of text is copied
byte for byte, a string or an extended-JSON object `{"$oid": "..."}` is decoded. -/
def ObjectID.UnmarshalJSON (old : ObjectID) (m : Member) : Except Err ObjectID :=
  match m.value, m.raw12 with
  | .null, _ => .ok old
  | _, some raw => .ok raw
  | .str s, none => oidOfString s
  | .obj kvs, none =>
    match lookupLast "$oid" kvs with
    | some (.str s) => oidOfString s
    | _ => .error .bind
  | _, none => .error .bind

/-- Decoding a value into a Go `string` field: a JSON string is stored, `null` is
skipped, anything else is an `UnmarshalTypeError`. -/
def decodeString (old : String) : JSON → Except Err String
  | .str s => .ok s
  | .null => .ok old
  | _ => .error .bind

/-- Decoding a value into a Go `bool` field. -/
def decodeBool (old : Bool) : JSON → Except Err Bool
  | .bool b => .ok b
  | .null => .ok old
  | _ => .error .bind

/-- Decoding a value into a Go `int` field: `strconv.ParseInt(lit, 10, 64)` accepts an
integer literal within 64 bits only. -/
def decodeInt (old : Int) : JSON → Except Err Int
  | .int n => if -(2 ^ 63) ≤ n ∧ n < 2 ^ 63 then .ok n else .error .bind
  | .null => .ok old
  | _ => .error .bind

/-! ## The two document types -/

/-- The struct `Hiking` of `main.go`. -/
structure Hiking where
  ID : ObjectID
  Name : String
  Location : String
  Date : String
  Parking : Bool
  Length : String
  Difficulty : Int
  Description : String
  deriving DecidableEq, Repr

/-- The struct `Observation` of `main.go`. -/
structure Observation where
  ID : ObjectID
  HikingId : String
  Name : String
  Comment : String
  Time : String
  deriving DecidableEq, Repr

/-- The zero value of `var hiking Hiking`. -/
def Hiking.zero : Hiking :=
  { ID := NilObjectID, Name := "", Location := "", Date := "", Parking := false,
    Length := "", Difficulty := 0, Description := "" }

/-- The zero value of `var observation Observation`. -/
def Observation.zero : Observation :=
  { ID := NilObjectID, HikingId := "", Name := "", Comment := "", Time := "" }

/-- One member of a body decoded into a `Hiking` by its `json` tags; a key that
pairs with no field is skipped. -/
def Hiking.decodeMember (h : Hiking) (m : Member) : Except Err Hiking :=
  let k := foldName m.key
  if k = "_id" then (ObjectID.UnmarshalJSON h.ID m).map (fun v => { h with ID := v })
  else if k = "name" then (decodeString h.Name m.value).map (fun v => { h with Name := v })
  else if k = "location" then
    (decodeString h.Location m.value).map (fun v => { h with Location := v })
  else if k = "date" then (decodeString h.Date m.value).map (fun v => { h with Date := v })
  else if k = "parking" then
    (decodeBool h.Parking m.value).map (fun v => { h with Parking := v })
  else if k = "length" then (decodeString h.Length m.value).map (fun v => { h with Length := v })
  else if k = "difficulty" then
    (decodeInt h.Difficulty m.value).map (fun v => { h with Difficulty := v })
  else if k = "description" then
    (decodeString h.Description m.value).map (fun v => { h with Description := v })
  else .ok h

/-- One member of a body decoded into an `Observation` by its `json` tags. -/
def Observation.decodeMember (o : Observation) (m : Member) : Except Err Observation :=
  let k := foldName m.key
  if k = "_id" then (ObjectID.UnmarshalJSON o.ID m).map (fun v => { o with ID := v })
  else if k = "hiking_id" then
    (decodeString o.HikingId m.value).map (fun v => { o with HikingId := v })
  else if k = "name" then (decodeString o.Name m.value).map (fun v => { o with Name := v })
  else if k = "comment" then
    (decodeString o.Comment m.value).map (fun v => { o with Comment := v })
  else if k = "time" then (decodeString o.Time m.value).map (fun v => { o with Time := v })
  else .ok o

/-- The members of an object decoded one after the other into a struct. -/
def decodeMembers {α : Type} (step : α → Member → Except Err α) : α → List Member → Except Err α
  | a, [] => .ok a
  | a, m :: ms =>
    match step a m with
    | .error e => .error e
    | .ok a' => decodeMembers step a' ms

/-- The call `c.BindJSON(&hiking)` on a fresh `var hiking Hiking`: `null` leaves the
zero value, an object is decoded member by member, anything else is an error.  The
structs carry no `binding` tag, so gin's validation accepts every decoded value. -/
def Hiking.BindJSON : Body → Except Err Hiking
  | .malformed => .error .bind
  | .null => .ok Hiking.zero
  | .other => .error .bind
  | .object ms => decodeMembers Hiking.decodeMember Hiking.zero ms

/-- The call `c.BindJSON(&observation)` on a fresh `var observation Observation`. -/
def Observation.BindJSON : Body → Except Err Observation
  | .malformed => .error .bind
  | .null => .ok Observation.zero
  | .other => .error .bind
  | .object ms => decodeMembers Observation.decodeMember Observation.zero ms

/-! ## The document store -/

/-- The two package-level handles `hikingCollection` and `observationCollection`:
the documents of each collection, in the order the store returns them. -/
structure Store where
  hikingCollection : List Hiking
  observationCollection : List Observation
  deriving DecidableEq, Repr

/-- What lies outside a handler and is decided during one request: the value
`primitive.NewObjectID()` returns, and whether the collection call, or the
`cursor.All` after it, fails by itself (no connection, deadline of `ctx` exceeded).
A call that fails by itself is taken to have written nothing. -/
structure Env where
  newObjectID : ObjectID
  callErr : Option Err
  cursorErr : Option Err
  deriving DecidableEq, Repr

/-- The calls a handler makes on a collection or on its cursor. -/
inductive Op where
  | InsertOne
  | Find
  | All
  | FindOne
  | UpdateOne
  | DeleteOne
  deriving DecidableEq, Repr

/-- The call `InsertOne(ctx, doc)`: the unique index on `_id` refuses a second document
with the same identifier, otherwise the document is added. -/
def InsertOne {α : Type} (getID : α → ObjectID) (fault : Option Err) (coll : List α) (doc : α) :
    Except Err (List α) :=
  match fault with
  | some e => .error e
  | none =>
    if coll.any (fun d => decide (getID d = getID doc)) then .error .duplicateKey
    else .ok (coll ++ [doc])

/-- The call `Find(ctx, bson.M{})`: a cursor over every document of the collection. -/
def Find {α : Type} (fault : Option Err) (coll : List α) : Except Err (List α) :=
  match fault with
  | some e => .error e
  | none => .ok coll

/-- A Go slice value `[]T`: the nil slice, or a slice with its elements.  A variable
declared by `var xs []T` holds the nil slice. -/
inductive Slice (α : Type) where
  | nil
  | elems (xs : List α)
  deriving DecidableEq, Repr

/-- The call `cursor.All(ctx, &results)`, `results` being the slice the pointer leads to:
the documents of the cursor are written from index 0 on, appending as needed, and the
slice is cut to their number by `sliceVal.Slice(0, n)`.  With no document nothing is
appended, and the cut of a nil slice is the nil slice. -/
def All {α : Type} (fault : Option Err) (cursor : List α) (results : Slice α) :
    Except Err (Slice α) :=
  match fault with
  | some e => .error e
  | none =>
    match cursor, results with
    | [], .nil => .ok .nil
    | docs, _ => .ok (.elems docs)

/-- The call `FindOne(ctx, bson.M{"_id": id}).Decode(&doc)`: the first document with
that identifier, `mongo.ErrNoDocuments` when there is none. -/
def FindOne {α : Type} (getID : α → ObjectID) (fault : Option Err) (coll : List α)
    (id : ObjectID) : Except Err α :=
  match fault with
  | some e => .error e
  | none =>
    match coll.find? (fun d => decide (getID d = id)) with
    | none => .error .noDocuments
    | some d => .ok d

/-- The server side of `UpdateOne`: the first document matching the filter gets the
fields of `$set`; a `$set` that would change its `_id` is refused; without a match
nothing is written (the call does not upsert). -/
def applySet {α : Type} (getID : α → ObjectID) (id : ObjectID) (set : α → α) :
    List α → Except Err (List α)
  | [] => .ok []
  | d :: ds =>
    if getID d = id then
      if getID (set d) = getID d then .ok (set d :: ds) else .error .immutableField
    else
      match applySet getID id set ds with
      | .error e => .error e
      | .ok ds' => .ok (d :: ds')

/-- The call `UpdateOne(ctx, bson.M{"_id": id}, bson.M{"$set": doc})`. -/
def UpdateOne {α : Type} (getID : α → ObjectID) (fault : Option Err) (coll : List α)
    (id : ObjectID) (set : α → α) : Except Err (List α) :=
  match fault with
  | some e => .error e
  | none => applySet getID id set coll

/-- The call `DeleteOne(ctx, bson.M{"_id": id})`: the first document with that
identifier is removed; no match is no error. -/
def DeleteOne {α : Type} (getID : α → ObjectID) (fault : Option Err) (coll : List α)
    (id : ObjectID) : Except Err (List α) :=
  match fault with
  | some e => .error e
  | none => .ok (coll.eraseP (fun d => decide (getID d = id)))

/-- The update document `bson.M{"$set": hiking}`: every field of the struct, by its
`bson` tag, `_id` included, written into the stored document. -/
def Hiking.set (hiking stored : Hiking) : Hiking :=
  { stored with
    ID := hiking.ID, Name := hiking.Name, Location := hiking.Location, Date := hiking.Date,
    Parking := hiking.Parking, Length := hiking.Length, Difficulty := hiking.Difficulty,
    Description := hiking.Description }

/-- The update document `bson.M{"$set": observation}`. -/
def Observation.set (observation stored : Observation) : Observation :=
  { stored with
    ID := observation.ID, HikingId := observation.HikingId, Name := observation.Name,
    Comment := observation.Comment, Time := observation.Time }

/-! ## Responses -/

/-- The second argument of `c.JSON`. -/
inductive Payload where
  /-- The map `gin.H{"error": err.Error()}`. -/
  | error (e : Err)
  /-- The map `gin.H{"message": text}`. -/
  | message (text : String)
  | hiking (h : Hiking)
  | hikings (hs : Slice Hiking)
  | observation (o : Observation)
  | observations (os : Slice Observation)
  deriving DecidableEq, Repr

/-- The call `c.JSON(status, body)`. -/
structure Response where
  status : Nat
  body : Payload
  deriving DecidableEq, Repr

/-- One request handled: the response written, the store afterwards, and the calls
made on the collection, in order. -/
structure Outcome where
  response : Response
  store : Store
  calls : List Op
  deriving DecidableEq, Repr

/-- The JSON object `json.Marshal` writes for a `Hiking`, by its `json` tags; an
`ObjectID` is written as the string of its hexadecimal digits. -/
def Hiking.json (h : Hiking) : JSON :=
  .obj [("_id", .str (ObjectID.Hex h.ID)), ("name", .str h.Name), ("location", .str h.Location),
    ("date", .str h.Date), ("parking", .bool h.Parking), ("length", .str h.Length),
    ("difficulty", .int h.Difficulty), ("description", .str h.Description)]

/-- The JSON object `json.Marshal` writes for an `Observation`. -/
def Observation.json (o : Observation) : JSON :=
  .obj [("_id", .str (ObjectID.Hex o.ID)), ("hiking_id", .str o.HikingId), ("name", .str o.Name),
    ("comment", .str o.Comment), ("time", .str o.Time)]

/-- The JSON value `json.Marshal` writes for a slice: an array of its elements, and
`null` for the nil slice. -/
def Slice.json {α : Type} (elem : α → JSON) : Slice α → JSON
  | .nil => .null
  | .elems xs => .arr (xs.map elem)

/-- The JSON value `c.JSON` writes as the body of the response, `text` being the
rendering `err.Error()` of an error. -/
def Payload.json (text : Err → String) : Payload → JSON
  | .error e => .obj [("error", .str (text e))]
  | .message t => .obj [("message", .str t)]
  | .hiking h => h.json
  | .hikings hs => Slice.json Hiking.json hs
  | .observation o => o.json
  | .observations os => Slice.json Observation.json os

/-! ## The handlers of `main.go` -/

/-- The handler `createHiking` (POST /hiking). -/
def createHiking (env : Env) (body : Body) (s : Store) : Outcome :=
  match Hiking.BindJSON body with
  | .error e => ⟨⟨400, .error e⟩, s, []⟩
  | .ok parsed =>
    let hiking := { parsed with ID := env.newObjectID }
    match InsertOne Hiking.ID env.callErr s.hikingCollection hiking with
    | .error e => ⟨⟨500, .error e⟩, s, [.InsertOne]⟩
    | .ok coll => ⟨⟨200, .hiking hiking⟩, { s with hikingCollection := coll }, [.InsertOne]⟩

/-- The handler `getHikings` (GET /hiking); `var hikings []Hiking` is the nil slice. -/
def getHikings (env : Env) (s : Store) : Outcome :=
  match Find env.callErr s.hikingCollection with
  | .error e => ⟨⟨500, .error e⟩, s, [.Find]⟩
  | .ok cursor =>
    match All env.cursorErr cursor .nil with
    | .error e => ⟨⟨500, .error e⟩, s, [.Find, .All]⟩
    | .ok hikings => ⟨⟨200, .hikings hikings⟩, s, [.Find, .All]⟩

/-- The handler `getAHiking` (GET /hiking/:id). -/
def getAHiking (env : Env) (param : String) (s : Store) : Outcome :=
  match ObjectIDFromHex param with
  | .error e => ⟨⟨400, .error e⟩, s, []⟩
  | .ok id =>
    match FindOne Hiking.ID env.callErr s.hikingCollection id with
    | .error e => ⟨⟨500, .error e⟩, s, [.FindOne]⟩
    | .ok hiking => ⟨⟨200, .hiking hiking⟩, s, [.FindOne]⟩

/-- The handler `updateHiking` (PATCH /hiking/:id). -/
def updateHiking (env : Env) (param : String) (body : Body) (s : Store) : Outcome :=
  match ObjectIDFromHex param with
  | .error e => ⟨⟨400, .error e⟩, s, []⟩
  | .ok id =>
    match Hiking.BindJSON body with
    | .error e => ⟨⟨400, .error e⟩, s, []⟩
    | .ok parsed =>
      let hiking := { parsed with ID := id }
      match UpdateOne Hiking.ID env.callErr s.hikingCollection id (Hiking.set hiking) with
      | .error e => ⟨⟨500, .error e⟩, s, [.UpdateOne]⟩
      | .ok coll => ⟨⟨200, .hiking hiking⟩, { s with hikingCollection := coll }, [.UpdateOne]⟩

/-- The handler `deleteHiking` (DELETE /hiking/:id). -/
def deleteHiking (env : Env) (param : String) (s : Store) : Outcome :=
  match ObjectIDFromHex param with
  | .error e => ⟨⟨400, .error e⟩, s, []⟩
  | .ok id =>
    match DeleteOne Hiking.ID env.callErr s.hikingCollection id with
    | .error e => ⟨⟨500, .error e⟩, s, [.DeleteOne]⟩
    | .ok coll =>
      ⟨⟨200, .message "Hiking deleted"⟩, { s with hikingCollection := coll }, [.DeleteOne]⟩

/-- The handler `createObservation` (POST /observation). -/
def createObservation (env : Env) (body : Body) (s : Store) : Outcome :=
  match Observation.BindJSON body with
  | .error e => ⟨⟨400, .error e⟩, s, []⟩
  | .ok parsed =>
    let observation := { parsed with ID := env.newObjectID }
    match InsertOne Observation.ID env.callErr s.observationCollection observation with
    | .error e => ⟨⟨500, .error e⟩, s, [.InsertOne]⟩
    | .ok coll =>
      ⟨⟨200, .observation observation⟩, { s with observationCollection := coll }, [.InsertOne]⟩

/-- The handler `getObservations` (GET /observation); `var observations []Observation`
is the nil slice. -/
def getObservations (env : Env) (s : Store) : Outcome :=
  match Find env.callErr s.observationCollection with
  | .error e => ⟨⟨500, .error e⟩, s, [.Find]⟩
  | .ok cursor =>
    match All env.cursorErr cursor .nil with
    | .error e => ⟨⟨500, .error e⟩, s, [.Find, .All]⟩
    | .ok observations => ⟨⟨200, .observations observations⟩, s, [.Find, .All]⟩

/-- The handler `getAnObservation` (GET /observation/:id). -/
def getAnObservation (env : Env) (param : String) (s : Store) : Outcome :=
  match ObjectIDFromHex param with
  | .error e => ⟨⟨400, .error e⟩, s, []⟩
  | .ok id =>
    match FindOne Observation.ID env.callErr s.observationCollection id with
    | .error e => ⟨⟨500, .error e⟩, s, [.FindOne]⟩
    | .ok observation => ⟨⟨200, .observation observation⟩, s, [.FindOne]⟩

/-- The handler `updateObservation` (PATCH /observation/:id). -/
def updateObservation (env : Env) (param : String) (body : Body) (s : Store) : Outcome :=
  match ObjectIDFromHex param with
  | .error e => ⟨⟨400, .error e⟩, s, []⟩
  | .ok id =>
    match Observation.BindJSON body with
    | .error e => ⟨⟨400, .error e⟩, s, []⟩
    | .ok parsed =>
      let observation := { parsed with ID := id }
      match UpdateOne Observation.ID env.callErr s.observationCollection id
          (Observation.set observation) with
      | .error e => ⟨⟨500, .error e⟩, s, [.UpdateOne]⟩
      | .ok coll =>
        ⟨⟨200, .observation observation⟩, { s with observationCollection := coll },
          [.UpdateOne]⟩

/-- The handler `deleteObservation` (DELETE /observation/:id). -/
def deleteObservation (env : Env) (param : String) (s : Store) : Outcome :=
  match ObjectIDFromHex param with
  | .error e => ⟨⟨400, .error e⟩, s, []⟩
  | .ok id =>
    match DeleteOne Observation.ID env.callErr s.observationCollection id with
    | .error e => ⟨⟨500, .error e⟩, s, [.DeleteOne]⟩
    | .ok coll =>
      ⟨⟨200, .message "Observation deleted"⟩, { s with observationCollection := coll },
        [.DeleteOne]⟩

/-! ## Notions used to state the claims -/

/-- No member of the object pairs with the struct field of this (lower-case) name. -/
def absent (field : String) (ms : List Member) : Prop :=
  ∀ m ∈ ms, foldName m.key ≠ field

/-- The member pairs with the field `_id`. -/
def isIdKey (m : Member) : Bool :=
  decide (foldName m.key = "_id")

/-- The members of an object other than its `_id` members: two bodies with the same
`dropId` differ at most in having, and in the value of, an `_id` member. -/
def dropId (ms : List Member) : List Member :=
  ms.filter (fun m => !isIdKey m)

/-- The value of the member is one `ObjectID.UnmarshalJSON` accepts. -/
def decodesAsId (m : Member) : Bool :=
  match ObjectID.UnmarshalJSON NilObjectID m with
  | .ok _ => true
  | .error _ => false

/-! ## Sample requests -/

/-- The body of the scenario `POST /hiking`. -/
def ridgeTrail : Body :=
  .object [⟨"name", .str "Ridge Trail", none⟩, ⟨"location", .str "North Valley", none⟩,
    ⟨"date", .str "2024-05-01", none⟩, ⟨"parking", .bool true, none⟩,
    ⟨"length", .str "5km", none⟩, ⟨"difficulty", .int 3, none⟩,
    ⟨"description", .str "Scenic", none⟩]

/-- The struct `ridgeTrail` decodes to. -/
def ridgeTrailDoc : Hiking :=
  { ID := 0, Name := "Ridge Trail", Location := "North Valley", Date := "2024-05-01",
    Parking := true, Length := "5km", Difficulty := 3, Description := "Scenic" }

/-- A body for `POST /observation`. -/
def heronSeen : Body :=
  .object [⟨"hiking_id", .str "000000000000000000000007", none⟩, ⟨"name", .str "Heron", none⟩,
    ⟨"comment", .str "by the lake", none⟩, ⟨"time", .str "09:30", none⟩]

/-- The struct `heronSeen` decodes to. -/
def heronSeenDoc : Observation :=
  { ID := 0, HikingId := "000000000000000000000007", Name := "Heron",
    Comment := "by the lake", Time := "09:30" }

/-- A store with one hiking trip (identifier 7) and one observation (identifier 9). -/
def smallStore : Store :=
  { hikingCollection := [⟨7, "Old Mill", "East", "2023-01-01", false, "2km", 1, "Flat"⟩],
    observationCollection := [⟨9, "000000000000000000000007", "Fox", "at dusk", "18:00"⟩] }

/-- A request during which the driver works and `NewObjectID` returns 42. -/
def calm : Env := { newObjectID := 42, callErr := none, cursorErr := none }

/-- A request during which the collection call fails. -/
def offline : Env := { newObjectID := 42, callErr := some .driver, cursorErr := none }

/-- A body whose `_id` names another document than the path does. -/
def renameWithOtherId : Body :=
  .object [⟨"_id", .str "000000000000000000000063", none⟩, ⟨"name", .str "New Mill", none⟩]

/-- A body whose `difficulty` is a string, not a number. -/
def badDifficulty : Body :=
  .object [⟨"name", .str "Ridge Trail", none⟩, ⟨"difficulty", .str "hard", none⟩]

/-- A body with the single member `name`. -/
def renameOnly : List Member :=
  [⟨"name", .str "New Mill", none⟩]

/-- The body `renameOnly` with an `_id` member that is no identifier put before. -/
def renameWithBadId : List Member :=
  [⟨"_id", .str "zz", none⟩, ⟨"name", .str "New Mill", none⟩]

/-- The body `renameOnly` with an `_id` member naming another document put before. -/
def renameWithGoodId : List Member :=
  [⟨"_ID", .str "000000000000000000000063", none⟩, ⟨"name", .str "New Mill", none⟩]

/-! ## Identifiers: hexadecimal form -/

theorem fromHexChar_hexDigit (d : Nat) (h : d < 16) : fromHexChar (hexDigit d) = some d := by
  interval_cases d <;> rfl

theorem hexValue_append (xs ys : List Char) (acc : Nat) :
    hexValue acc (xs ++ ys) = (hexValue acc xs).bind (fun a => hexValue a ys) := by
  induction xs generalizing acc with
  | nil => simp [hexValue]
  | cons c cs ih =>
    simp only [List.cons_append, hexValue]
    cases fromHexChar c with
    | none => simp
    | some d => simp [ih]

theorem hexValue_hexDigits (k n : Nat) : hexValue 0 (hexDigits k n) = some (n % 16 ^ k) := by
  induction k generalizing n with
  | zero => simp [hexDigits, hexValue, Nat.mod_one]
  | succ k ih =>
    simp only [hexDigits, hexValue_append, ih, Option.some_bind, hexValue,
      fromHexChar_hexDigit _ (Nat.mod_lt n (by decide))]
    congr 1
    rw [pow_succ, Nat.mul_comm (16 ^ k) 16, Nat.mod_mul]
    omega

theorem length_hexDigits (k n : Nat) : (hexDigits k n).length = k := by
  induction k generalizing n with
  | zero => rfl
  | succ k ih => simp [hexDigits, ih]

theorem char_le_iff (a b : Char) : a ≤ b ↔ a.toNat ≤ b.toNat := Iff.rfl

theorem fromHexChar_isSome_iff (c : Char) : (fromHexChar c).isSome = isHexDigit c := by
  unfold fromHexChar isHexDigit
  simp only [char_le_iff]
  have e0 : ('0' : Char).toNat = 48 := rfl
  have e9 : ('9' : Char).toNat = 57 := rfl
  have ea : ('a' : Char).toNat = 97 := rfl
  have ef : ('f' : Char).toNat = 102 := rfl
  have eA : ('A' : Char).toNat = 65 := rfl
  have eF : ('F' : Char).toNat = 70 := rfl
  rw [e0, e9, ea, ef, eA, eF]
  by_cases h1 : 48 ≤ c.toNat ∧ c.toNat ≤ 57
  · simp [h1]
  · by_cases h2 : 97 ≤ c.toNat ∧ c.toNat ≤ 102
    · simp [h1, h2]
    · by_cases h3 : 65 ≤ c.toNat ∧ c.toNat ≤ 70
      · simp [h1, h2, h3]
      · simp [h1, h2, h3]
        omega

theorem utf8Size_of_le (c : Char) (h : c.toNat ≤ 127) : c.utf8Size = 1 := by
  unfold Char.utf8Size
  have h1 : c.val ≤ UInt32.ofNatCore 127 (by decide) := h
  rw [if_pos h1]

theorem toNat_le_of_isHexDigit (c : Char) (h : isHexDigit c = true) : c.toNat ≤ 127 := by
  rw [← fromHexChar_isSome_iff] at h
  unfold fromHexChar at h
  split_ifs at h <;> first | omega | simp at h

theorem utf8Len_of_hex (cs : List Char) (h : ∀ c ∈ cs, isHexDigit c = true) :
    String.utf8Len cs = cs.length := by
  induction cs with
  | nil => rfl
  | cons c cs ih =>
    have hc := utf8Size_of_le c (toNat_le_of_isHexDigit c (h c (List.mem_cons_self _ _)))
    have := ih (fun x hx => h x (List.mem_cons_of_mem _ hx))
    show String.utf8Len cs + c.utf8Size = cs.length + 1
    rw [this, hc]

theorem hexValue_isSome_iff (cs : List Char) (acc : Nat) :
    (hexValue acc cs).isSome ↔ ∀ c ∈ cs, isHexDigit c = true := by
  induction cs generalizing acc with
  | nil => simp [hexValue]
  | cons c cs ih =>
    have hc := fromHexChar_isSome_iff c
    simp only [hexValue, List.mem_cons, forall_eq_or_imp]
    cases hd : fromHexChar c with
    | none =>
      rw [hd] at hc
      simp [← hc]
    | some d =>
      rw [hd] at hc
      simp [← hc, ih]

theorem ObjectIDFromHex_ok_iff (s : String) :
    (∃ id, ObjectIDFromHex s = .ok id) ↔ isHex24 s := by
  unfold ObjectIDFromHex isHex24
  constructor
  · rintro ⟨id, h⟩
    split_ifs at h with hlen
    cases hv : hexValue 0 s.data with
    | none => simp [hv] at h
    | some n =>
      have hall := (hexValue_isSome_iff s.data 0).1 (by simp [hv])
      refine ⟨?_, hall⟩
      have := utf8Len_of_hex s.data hall
      have e : s.utf8ByteSize = String.utf8Len s.data := by
        cases s; simp [String.utf8ByteSize, String.utf8ByteSize.go_eq]
      rw [String.length]
      omega
  · rintro ⟨hlen, hall⟩
    have := utf8Len_of_hex s.data hall
    have e : s.utf8ByteSize = String.utf8Len s.data := by
      cases s; simp [String.utf8ByteSize, String.utf8ByteSize.go_eq]
    rw [String.length] at hlen
    have hsz : ¬ s.utf8ByteSize ≠ 24 := by omega
    rw [if_neg hsz]
    have hs := (hexValue_isSome_iff s.data 0).2 hall
    cases hv : hexValue 0 s.data with
    | none => simp [hv] at hs
    | some n => exact ⟨_, rfl⟩

theorem ObjectIDFromHex_Hex (id : ObjectID) : ObjectIDFromHex id.Hex = .ok id := by
  have hall : ∀ c ∈ hexDigits 24 id.val, isHexDigit c = true := by
    rw [← hexValue_isSome_iff _ 0, hexValue_hexDigits]; rfl
  have hsz : (ObjectID.Hex id).utf8ByteSize = 24 := by
    show String.utf8ByteSize.go (hexDigits 24 id.val) = 24
    rw [String.utf8ByteSize.go_eq, utf8Len_of_hex _ hall, length_hexDigits]
  unfold ObjectIDFromHex
  rw [if_neg (by omega)]
  have hv : hexValue 0 (ObjectID.Hex id).data = some (id.val % 16 ^ 24) :=
    hexValue_hexDigits 24 id.val
  simp only [hv]
  have h16 : (16 : Nat) ^ 24 = 2 ^ 96 := by norm_num
  apply congrArg Except.ok
  apply Fin.ext
  simp only [h16, Nat.mod_mod, Nat.mod_eq_of_lt id.isLt]

theorem ObjectIDFromHex_error (s : String) (h : ¬ isHex24 s) :
    ObjectIDFromHex s = .error .invalidHex := by
  have hno : ∀ id, ObjectIDFromHex s ≠ .ok id :=
    fun id hid => h ((ObjectIDFromHex_ok_iff s).1 ⟨id, hid⟩)
  unfold ObjectIDFromHex at hno ⊢
  split_ifs with hlen
  · rfl
  · rw [if_neg hlen] at hno
    cases hv : hexValue 0 s.data with
    | none => rfl
    | some n => exact absurd (by rw [hv]) (hno ⟨n % 2 ^ 96, Nat.mod_lt _ (by decide)⟩)

/-! ## The collection calls -/

section Collection

variable {α : Type} (getID : α → ObjectID)

theorem find?_none_of_ne (coll : List α) (id : ObjectID) (h : ∀ d ∈ coll, getID d ≠ id) :
    coll.find? (fun d => decide (getID d = id)) = none := by
  induction coll with
  | nil => rfl
  | cons d ds ih =>
    have hd : getID d ≠ id := h d (List.mem_cons_self _ _)
    simp only [List.find?_cons, hd, decide_False]
    exact ih (fun x hx => h x (List.mem_cons_of_mem _ hx))

theorem find?_first (pre post : List α) (x : α) (id : ObjectID)
    (hpre : ∀ d ∈ pre, getID d ≠ id) (hx : getID x = id) :
    (pre ++ x :: post).find? (fun d => decide (getID d = id)) = some x := by
  induction pre with
  | nil => simp [List.find?_cons, hx]
  | cons d ds ih =>
    have hd : getID d ≠ id := hpre d (List.mem_cons_self _ _)
    simp only [List.cons_append, List.find?_cons, hd, decide_False]
    exact ih (fun y hy => hpre y (List.mem_cons_of_mem _ hy))

theorem find?_some_iff_exists (coll : List α) (id : ObjectID) :
    (∃ d, coll.find? (fun d => decide (getID d = id)) = some d) ↔ ∃ d ∈ coll, getID d = id := by
  constructor
  · rintro ⟨d, hd⟩
    exact ⟨d, List.mem_of_find?_eq_some hd, by simpa using List.find?_some hd⟩
  · rintro ⟨d, hd, hid⟩
    cases hf : coll.find? (fun d => decide (getID d = id)) with
    | some x => exact ⟨x, rfl⟩
    | none =>
      have := List.find?_eq_none.1 hf d hd
      simp [hid] at this

theorem eraseP_of_ne (coll : List α) (id : ObjectID) (h : ∀ d ∈ coll, getID d ≠ id) :
    coll.eraseP (fun d => decide (getID d = id)) = coll := by
  induction coll with
  | nil => rfl
  | cons d ds ih =>
    have hd : getID d ≠ id := h d (List.mem_cons_self _ _)
    simp only [List.eraseP_cons, hd, decide_False, cond_false]
    rw [ih (fun x hx => h x (List.mem_cons_of_mem _ hx))]

theorem applySet_of_ne (coll : List α) (id : ObjectID) (set : α → α)
    (h : ∀ d ∈ coll, getID d ≠ id) : applySet getID id set coll = .ok coll := by
  induction coll with
  | nil => rfl
  | cons d ds ih =>
    have hd : getID d ≠ id := h d (List.mem_cons_self _ _)
    simp only [applySet, hd, if_false]
    rw [ih (fun x hx => h x (List.mem_cons_of_mem _ hx))]

theorem applySet_first (coll : List α) (id : ObjectID) (set : α → α)
    (hset : ∀ d, getID (set d) = id) (h : ∃ d ∈ coll, getID d = id) :
    ∃ pre old post, coll = pre ++ old :: post ∧ getID old = id ∧ (∀ d ∈ pre, getID d ≠ id) ∧
      applySet getID id set coll = .ok (pre ++ set old :: post) := by
  induction coll with
  | nil => simp at h
  | cons d ds ih =>
    by_cases hd : getID d = id
    · refine ⟨[], d, ds, rfl, hd, by simp, ?_⟩
      simp [applySet, hd, hset]
    · obtain ⟨x, hx, hxid⟩ := h
      have hx' : x ∈ ds := by
        rcases List.mem_cons.1 hx with rfl | hmem
        · exact absurd hxid hd
        · exact hmem
      obtain ⟨pre, old, post, hsplit, hold, hpre, happ⟩ := ih ⟨x, hx', hxid⟩
      refine ⟨d :: pre, old, post, by simp [hsplit], hold, ?_, ?_⟩
      · intro y hy
        rcases List.mem_cons.1 hy with rfl | hmem
        · exact hd
        · exact hpre y hmem
      · simp [applySet, hd, happ]

end Collection

theorem hiking_set_eq (hiking stored : Hiking) : Hiking.set hiking stored = hiking := rfl

theorem observation_set_eq (observation stored : Observation) :
    Observation.set observation stored = observation := rfl

theorem FindOne_after_InsertOne {α : Type} (getID : α → ObjectID) (fault : Option Err)
    (coll coll' : List α) (doc : α) (h : InsertOne getID fault coll doc = .ok coll') :
    FindOne getID none coll' (getID doc) = .ok doc := by
  unfold InsertOne at h
  cases fault with
  | some e => simp at h
  | none =>
    simp only at h
    split_ifs at h with hany
    simp only [Except.ok.injEq] at h
    subst h
    have hne : ∀ d ∈ coll, getID d ≠ getID doc := by
      intro d hd hEq
      exact hany (List.any_eq_true.2 ⟨d, hd, by simp [hEq]⟩)
    have := find?_first getID coll [] doc (getID doc) hne rfl
    simp only [FindOne, this]

/-! ## Decoding a body -/

theorem Except.map_eq_ok {ε α β : Type} {f : α → β} {x : Except ε α} {y : β}
    (h : Except.map f x = .ok y) : ∃ v, x = .ok v ∧ y = f v := by
  cases x with
  | error e => simp [Except.map] at h
  | ok v => exact ⟨v, rfl, by simpa [Except.map] using h.symm⟩

theorem UnmarshalJSON_ok_indep (old old' : ObjectID) (m : Member)
    (h : ∃ v, ObjectID.UnmarshalJSON old m = .ok v) :
    ∃ v, ObjectID.UnmarshalJSON old' m = .ok v := by
  unfold ObjectID.UnmarshalJSON at h ⊢
  split <;> simp_all

theorem UnmarshalJSON_ok_of_decodesAsId (old : ObjectID) (m : Member)
    (h : decodesAsId m = true) : ∃ v, ObjectID.UnmarshalJSON old m = .ok v := by
  apply UnmarshalJSON_ok_indep NilObjectID
  unfold decodesAsId at h
  cases hu : ObjectID.UnmarshalJSON NilObjectID m with
  | ok v => exact ⟨v, rfl⟩
  | error e => simp [hu] at h

theorem UnmarshalJSON_error_of_not_decodesAsId (old : ObjectID) (m : Member)
    (h : decodesAsId m = false) : ∃ e, ObjectID.UnmarshalJSON old m = .error e := by
  cases hu : ObjectID.UnmarshalJSON old m with
  | error e => exact ⟨e, rfl⟩
  | ok v =>
    obtain ⟨w, hw⟩ := UnmarshalJSON_ok_indep old NilObjectID m ⟨v, hu⟩
    simp [decodesAsId, hw] at h

theorem hiking_decodeMember_frame (h h' : Hiking) (m : Member)
    (hm : Hiking.decodeMember h m = .ok h') :
    (foldName m.key ≠ "_id" → h'.ID = h.ID) ∧
    (foldName m.key ≠ "name" → h'.Name = h.Name) ∧
    (foldName m.key ≠ "location" → h'.Location = h.Location) ∧
    (foldName m.key ≠ "date" → h'.Date = h.Date) ∧
    (foldName m.key ≠ "parking" → h'.Parking = h.Parking) ∧
    (foldName m.key ≠ "length" → h'.Length = h.Length) ∧
    (foldName m.key ≠ "difficulty" → h'.Difficulty = h.Difficulty) ∧
    (foldName m.key ≠ "description" → h'.Description = h.Description) := by
  unfold Hiking.decodeMember at hm
  simp only at hm
  split_ifs at hm with k1 k2 k3 k4 k5 k6 k7 k8
  all_goals first
    | (obtain ⟨v, -, rfl⟩ := Except.map_eq_ok hm
       simp [*])
    | (simp only [Except.ok.injEq] at hm
       subst hm
       simp)

theorem observation_decodeMember_frame (o o' : Observation) (m : Member)
    (hm : Observation.decodeMember o m = .ok o') :
    (foldName m.key ≠ "_id" → o'.ID = o.ID) ∧
    (foldName m.key ≠ "hiking_id" → o'.HikingId = o.HikingId) ∧
    (foldName m.key ≠ "name" → o'.Name = o.Name) ∧
    (foldName m.key ≠ "comment" → o'.Comment = o.Comment) ∧
    (foldName m.key ≠ "time" → o'.Time = o.Time) := by
  unfold Observation.decodeMember at hm
  simp only at hm
  split_ifs at hm with k1 k2 k3 k4 k5
  all_goals first
    | (obtain ⟨v, -, rfl⟩ := Except.map_eq_ok hm
       simp [*])
    | (simp only [Except.ok.injEq] at hm
       subst hm
       simp)

theorem hiking_decodeMembers_frame (ms : List Member) (h h' : Hiking)
    (hm : decodeMembers Hiking.decodeMember h ms = .ok h') :
    (absent "_id" ms → h'.ID = h.ID) ∧
    (absent "name" ms → h'.Name = h.Name) ∧
    (absent "location" ms → h'.Location = h.Location) ∧
    (absent "date" ms → h'.Date = h.Date) ∧
    (absent "parking" ms → h'.Parking = h.Parking) ∧
    (absent "length" ms → h'.Length = h.Length) ∧
    (absent "difficulty" ms → h'.Difficulty = h.Difficulty) ∧
    (absent "description" ms → h'.Description = h.Description) := by
  induction ms generalizing h with
  | nil =>
    simp only [decodeMembers, Except.ok.injEq] at hm
    subst hm
    simp
  | cons m ms ih =>
    simp only [decodeMembers] at hm
    cases hs : Hiking.decodeMember h m with
    | error e => simp [hs] at hm
    | ok h1 =>
      simp only [hs] at hm
      have f1 := hiking_decodeMember_frame h h1 m hs
      have f2 := ih h1 hm
      simp only [absent, List.mem_cons, forall_eq_or_imp] at f2 ⊢
      refine ⟨?_, ?_, ?_, ?_, ?_, ?_, ?_, ?_⟩
      · exact fun a => (f2.1 a.2).trans (f1.1 a.1)
      · exact fun a => (f2.2.1 a.2).trans (f1.2.1 a.1)
      · exact fun a => (f2.2.2.1 a.2).trans (f1.2.2.1 a.1)
      · exact fun a => (f2.2.2.2.1 a.2).trans (f1.2.2.2.1 a.1)
      · exact fun a => (f2.2.2.2.2.1 a.2).trans (f1.2.2.2.2.1 a.1)
      · exact fun a => (f2.2.2.2.2.2.1 a.2).trans (f1.2.2.2.2.2.1 a.1)
      · exact fun a => (f2.2.2.2.2.2.2.1 a.2).trans (f1.2.2.2.2.2.2.1 a.1)
      · exact fun a => (f2.2.2.2.2.2.2.2 a.2).trans (f1.2.2.2.2.2.2.2 a.1)

theorem observation_decodeMembers_frame (ms : List Member) (o o' : Observation)
    (hm : decodeMembers Observation.decodeMember o ms = .ok o') :
    (absent "_id" ms → o'.ID = o.ID) ∧
    (absent "hiking_id" ms → o'.HikingId = o.HikingId) ∧
    (absent "name" ms → o'.Name = o.Name) ∧
    (absent "comment" ms → o'.Comment = o.Comment) ∧
    (absent "time" ms → o'.Time = o.Time) := by
  induction ms generalizing o with
  | nil =>
    simp only [decodeMembers, Except.ok.injEq] at hm
    subst hm
    simp
  | cons m ms ih =>
    simp only [decodeMembers] at hm
    cases hs : Observation.decodeMember o m with
    | error e => simp [hs] at hm
    | ok o1 =>
      simp only [hs] at hm
      have f1 := observation_decodeMember_frame o o1 m hs
      have f2 := ih o1 hm
      simp only [absent, List.mem_cons, forall_eq_or_imp] at f2 ⊢
      refine ⟨?_, ?_, ?_, ?_, ?_⟩
      · exact fun a => (f2.1 a.2).trans (f1.1 a.1)
      · exact fun a => (f2.2.1 a.2).trans (f1.2.1 a.1)
      · exact fun a => (f2.2.2.1 a.2).trans (f1.2.2.1 a.1)
      · exact fun a => (f2.2.2.2.1 a.2).trans (f1.2.2.2.1 a.1)
      · exact fun a => (f2.2.2.2.2 a.2).trans (f1.2.2.2.2 a.1)

theorem decodeMembers_dropId {α : Type} (step : α → Member → Except Err α)
    (withID : ObjectID → α → α)
    (hw : ∀ x y a, withID x (withID y a) = withID x a)
    (hnon : ∀ x a m, isIdKey m = false → step (withID x a) m = (step a m).map (withID x))
    (hidm : ∀ a m, isIdKey m = true → decodesAsId m = true → ∃ y, step a m = .ok (withID y a))
    (x y : ObjectID) (ms : List Member) (a : α)
    (hms : ∀ m ∈ ms, isIdKey m = true → decodesAsId m = true) :
    (decodeMembers step a ms).map (withID x)
      = (decodeMembers step (withID y a) (dropId ms)).map (withID x) := by
  induction ms generalizing a y with
  | nil => simp [dropId, decodeMembers, Except.map, hw]
  | cons m ms ih =>
    have hms' : ∀ m ∈ ms, isIdKey m = true → decodesAsId m = true :=
      fun m' hm' => hms m' (List.mem_cons_of_mem _ hm')
    cases hk : isIdKey m with
    | true =>
      obtain ⟨z, hz⟩ := hidm a m hk (hms m (List.mem_cons_self _ _) hk)
      have hd : dropId (m :: ms) = dropId ms := by simp [dropId, hk]
      rw [hd]
      simp only [decodeMembers, hz]
      rw [ih y (withID z a) hms', hw]
    | false =>
      have hd : dropId (m :: ms) = m :: dropId ms := by simp [dropId, hk]
      rw [hd]
      simp only [decodeMembers, hnon y a m hk]
      cases hs : step a m with
      | error e => rfl
      | ok a1 =>
        simp only [Except.map]
        exact ih y a1 hms'

theorem decodeMembers_error_of_bad_id {α : Type} (step : α → Member → Except Err α)
    (hbad : ∀ a m, isIdKey m = true → decodesAsId m = false → ∃ e, step a m = .error e)
    (ms : List Member) (a : α) (h : ∃ m ∈ ms, isIdKey m = true ∧ decodesAsId m = false) :
    ∃ e, decodeMembers step a ms = .error e := by
  induction ms generalizing a with
  | nil => simp at h
  | cons m ms ih =>
    simp only [decodeMembers]
    cases hs : step a m with
    | error e => exact ⟨e, rfl⟩
    | ok a1 =>
      obtain ⟨m', hm', hk, hd⟩ := h
      rcases List.mem_cons.1 hm' with rfl | hmem
      · obtain ⟨e, he⟩ := hbad a m' hk hd
        rw [he] at hs
        cases hs
      · exact ih a1 ⟨m', hmem, hk, hd⟩

theorem hiking_decodeMember_other (x : ObjectID) (h : Hiking) (m : Member)
    (hk : isIdKey m = false) :
    Hiking.decodeMember { h with ID := x } m
      = (Hiking.decodeMember h m).map (fun r => { r with ID := x }) := by
  have hk' : foldName m.key ≠ "_id" := by simpa [isIdKey] using hk
  unfold Hiking.decodeMember
  simp only [hk', if_false]
  split_ifs
  · cases decodeString h.Name m.value <;> rfl
  · cases decodeString h.Location m.value <;> rfl
  · cases decodeString h.Date m.value <;> rfl
  · cases decodeBool h.Parking m.value <;> rfl
  · cases decodeString h.Length m.value <;> rfl
  · cases decodeInt h.Difficulty m.value <;> rfl
  · cases decodeString h.Description m.value <;> rfl
  · rfl

theorem observation_decodeMember_other (x : ObjectID) (o : Observation) (m : Member)
    (hk : isIdKey m = false) :
    Observation.decodeMember { o with ID := x } m
      = (Observation.decodeMember o m).map (fun r => { r with ID := x }) := by
  have hk' : foldName m.key ≠ "_id" := by simpa [isIdKey] using hk
  unfold Observation.decodeMember
  simp only [hk', if_false]
  split_ifs
  · cases decodeString o.HikingId m.value <;> rfl
  · cases decodeString o.Name m.value <;> rfl
  · cases decodeString o.Comment m.value <;> rfl
  · cases decodeString o.Time m.value <;> rfl
  · rfl

theorem hiking_decodeMember_id (h : Hiking) (m : Member) (hk : isIdKey m = true) :
    Hiking.decodeMember h m
      = (ObjectID.UnmarshalJSON h.ID m).map (fun v => { h with ID := v }) := by
  have hk' : foldName m.key = "_id" := by simpa [isIdKey] using hk
  unfold Hiking.decodeMember
  simp only [hk', if_true]

theorem observation_decodeMember_id (o : Observation) (m : Member) (hk : isIdKey m = true) :
    Observation.decodeMember o m
      = (ObjectID.UnmarshalJSON o.ID m).map (fun v => { o with ID := v }) := by
  have hk' : foldName m.key = "_id" := by simpa [isIdKey] using hk
  unfold Observation.decodeMember
  simp only [hk', if_true]

theorem hiking_BindJSON_dropId (x : ObjectID) (b1 b2 : List Member)
    (hsame : dropId b1 = dropId b2)
    (h1 : ∀ m ∈ b1, isIdKey m = true → decodesAsId m = true)
    (h2 : ∀ m ∈ b2, isIdKey m = true → decodesAsId m = true) :
    (Hiking.BindJSON (.object b1)).map (fun r => { r with ID := x })
      = (Hiking.BindJSON (.object b2)).map (fun r => { r with ID := x }) := by
  have key := decodeMembers_dropId Hiking.decodeMember (fun v r => { r with ID := v })
    (fun _ _ _ => rfl) (fun v a m hk => hiking_decodeMember_other v a m hk)
    (fun a m hk hd => by
      obtain ⟨v, hv⟩ := UnmarshalJSON_ok_of_decodesAsId a.ID m hd
      exact ⟨v, by rw [hiking_decodeMember_id a m hk, hv]; rfl⟩)
    x x
  simp only [Hiking.BindJSON]
  rw [key b1 Hiking.zero h1, key b2 Hiking.zero h2, hsame]

theorem observation_BindJSON_dropId (x : ObjectID) (b1 b2 : List Member)
    (hsame : dropId b1 = dropId b2)
    (h1 : ∀ m ∈ b1, isIdKey m = true → decodesAsId m = true)
    (h2 : ∀ m ∈ b2, isIdKey m = true → decodesAsId m = true) :
    (Observation.BindJSON (.object b1)).map (fun r => { r with ID := x })
      = (Observation.BindJSON (.object b2)).map (fun r => { r with ID := x }) := by
  have key := decodeMembers_dropId Observation.decodeMember (fun v r => { r with ID := v })
    (fun _ _ _ => rfl) (fun v a m hk => observation_decodeMember_other v a m hk)
    (fun a m hk hd => by
      obtain ⟨v, hv⟩ := UnmarshalJSON_ok_of_decodesAsId a.ID m hd
      exact ⟨v, by rw [observation_decodeMember_id a m hk, hv]; rfl⟩)
    x x
  simp only [Observation.BindJSON]
  rw [key b1 Observation.zero h1, key b2 Observation.zero h2, hsame]

theorem updateHiking_congr (env : Env) (s : Store) (param : String) (b1 b2 : Body)
    (h : ∀ x, (Hiking.BindJSON b1).map (fun r => { r with ID := x })
      = (Hiking.BindJSON b2).map (fun r => { r with ID := x })) :
    updateHiking env param b1 s = updateHiking env param b2 s := by
  unfold updateHiking
  cases hp : ObjectIDFromHex param with
  | error e => rfl
  | ok id =>
    have hx := h id
    cases h1 : Hiking.BindJSON b1 with
    | error e1 =>
      cases h2 : Hiking.BindJSON b2 with
      | error e2 =>
        rw [h1, h2] at hx
        simp only [Except.map, Except.error.injEq] at hx
        simp only [hx]
      | ok p2 =>
        rw [h1, h2] at hx
        simp [Except.map] at hx
    | ok p1 =>
      cases h2 : Hiking.BindJSON b2 with
      | error e2 =>
        rw [h1, h2] at hx
        simp [Except.map] at hx
      | ok p2 =>
        rw [h1, h2] at hx
        simp only [Except.map, Except.ok.injEq] at hx
        simp only [hx]

theorem updateObservation_congr (env : Env) (s : Store) (param : String) (b1 b2 : Body)
    (h : ∀ x, (Observation.BindJSON b1).map (fun r => { r with ID := x })
      = (Observation.BindJSON b2).map (fun r => { r with ID := x })) :
    updateObservation env param b1 s = updateObservation env param b2 s := by
  unfold updateObservation
  cases hp : ObjectIDFromHex param with
  | error e => rfl
  | ok id =>
    have hx := h id
    cases h1 : Observation.BindJSON b1 with
    | error e1 =>
      cases h2 : Observation.BindJSON b2 with
      | error e2 =>
        rw [h1, h2] at hx
        simp only [Except.map, Except.error.injEq] at hx
        simp only [hx]
      | ok p2 =>
        rw [h1, h2] at hx
        simp [Except.map] at hx
    | ok p1 =>
      cases h2 : Observation.BindJSON b2 with
      | error e2 =>
        rw [h1, h2] at hx
        simp [Except.map] at hx
      | ok p2 =>
        rw [h1, h2] at hx
        simp only [Except.map, Except.ok.injEq] at hx
        simp only [hx]

theorem getAHiking_absent (env : Env) (s : Store) (param : String) (id : ObjectID)
    (hid : ObjectIDFromHex param = .ok id) (hne : ∀ d ∈ s.hikingCollection, d.ID ≠ id) :
    (getAHiking env param s).response.status = 500 ∧
    ∃ err, (getAHiking env param s).response.body = .error err := by
  have hf := find?_none_of_ne Hiking.ID s.hikingCollection id hne
  unfold getAHiking FindOne
  simp only [hid, hf]
  cases env.callErr <;> simp

theorem getAnObservation_absent (env : Env) (s : Store) (param : String) (id : ObjectID)
    (hid : ObjectIDFromHex param = .ok id) (hne : ∀ d ∈ s.observationCollection, d.ID ≠ id) :
    (getAnObservation env param s).response.status = 500 ∧
    ∃ err, (getAnObservation env param s).response.body = .error err := by
  have hf := find?_none_of_ne Observation.ID s.observationCollection id hne
  unfold getAnObservation FindOne
  simp only [hid, hf]
  cases env.callErr <;> simp

theorem getHikings_of_documents (env : Env) (s : Store) (hcall : env.callErr = none)
    (hcur : env.cursorErr = none) (h : s.hikingCollection ≠ []) :
    getHikings env s = ⟨⟨200, .hikings (.elems s.hikingCollection)⟩, s, [.Find, .All]⟩ := by
  unfold getHikings
  simp only [Find, All, hcall, hcur]
  cases hc : s.hikingCollection with
  | nil => exact absurd hc h
  | cons d ds => rfl

theorem getObservations_of_documents (env : Env) (s : Store) (hcall : env.callErr = none)
    (hcur : env.cursorErr = none) (h : s.observationCollection ≠ []) :
    getObservations env s
      = ⟨⟨200, .observations (.elems s.observationCollection)⟩, s, [.Find, .All]⟩ := by
  unfold getObservations
  simp only [Find, All, hcall, hcur]
  cases hc : s.observationCollection with
  | nil => exact absurd hc h
  | cons d ds => rfl

/-! ## The claims -/

/-- C1: when a create request whose body decodes to `p` is answered with 200, the
document returned is `p` with the fresh identifier, and a read of that identifier (in
its hexadecimal form) on the resulting store, the driver working, is answered with 200
and the same document; for hiking trips and for observations. -/
theorem create_then_get_roundtrip (env env' : Env) (s : Store) (hbody obody : Body)
    (hread : env'.callErr = none) :
    (∀ p, Hiking.BindJSON hbody = .ok p →
      (createHiking env hbody s).response.status = 200 →
      (createHiking env hbody s).response.body = .hiking { p with ID := env.newObjectID } ∧
      (getAHiking env' (ObjectID.Hex env.newObjectID) (createHiking env hbody s).store).response
        = ⟨200, .hiking { p with ID := env.newObjectID }⟩) ∧
    (∀ q, Observation.BindJSON obody = .ok q →
      (createObservation env obody s).response.status = 200 →
      (createObservation env obody s).response.body
        = .observation { q with ID := env.newObjectID } ∧
      (getAnObservation env' (ObjectID.Hex env.newObjectID)
          (createObservation env obody s).store).response
        = ⟨200, .observation { q with ID := env.newObjectID }⟩) := by
  constructor
  · intro p hp hst
    unfold createHiking at hst ⊢
    simp only [hp] at hst ⊢
    cases hins : InsertOne Hiking.ID env.callErr s.hikingCollection
        { p with ID := env.newObjectID } with
    | error e => simp [hins] at hst
    | ok coll =>
      have hf := FindOne_after_InsertOne Hiking.ID _ _ _ _ hins
      simp only [getAHiking, ObjectIDFromHex_Hex, hread]
      simp only at hf
      simp only [hf, and_self]
  · intro q hq hst
    unfold createObservation at hst ⊢
    simp only [hq] at hst ⊢
    cases hins : InsertOne Observation.ID env.callErr s.observationCollection
        { q with ID := env.newObjectID } with
    | error e => simp [hins] at hst
    | ok coll =>
      have hf := FindOne_after_InsertOne Observation.ID _ _ _ _ hins
      simp only [getAnObservation, ObjectIDFromHex_Hex, hread]
      simp only at hf
      simp only [hf, and_self]

/-- The scenario of the interface: `ridgeTrail` created in `smallStore` and read back, and the same for an observation. -/
theorem create_then_get_roundtrip_witness :
    calm.callErr = none ∧ ObjectID.Hex calm.newObjectID = "00000000000000000000002a" ∧
    Hiking.BindJSON ridgeTrail = .ok ridgeTrailDoc ∧
    (createHiking calm ridgeTrail smallStore).response.status = 200 ∧
    (getAHiking calm (ObjectID.Hex calm.newObjectID)
        (createHiking calm ridgeTrail smallStore).store).response
      = ⟨200, .hiking { ridgeTrailDoc with ID := 42 }⟩ ∧
    Observation.BindJSON heronSeen = .ok heronSeenDoc ∧
    (createObservation calm heronSeen smallStore).response.status = 200 ∧
    (getAnObservation calm (ObjectID.Hex calm.newObjectID)
        (createObservation calm heronSeen smallStore).store).response
      = ⟨200, .observation { heronSeenDoc with ID := 42 }⟩ :=
  have h := create_then_get_roundtrip calm calm smallStore ridgeTrail heronSeen rfl
  ⟨rfl, by decide, by decide, by decide, (h.1 ridgeTrailDoc (by decide) (by decide)).2,
    by decide, by decide, (h.2 heronSeenDoc (by decide) (by decide)).2⟩

/-- C2: for a well-formed path identifier `id` and a body that decodes to `p`, an update
answered with 200 returns `p` with its identifier set to `id`, whatever `_id` the body
carried; for hiking trips and for observations. -/
theorem update_returns_path_id (env : Env) (s : Store) (param : String) (id : ObjectID)
    (hbody obody : Body) (hid : ObjectIDFromHex param = .ok id) :
    (∀ p, Hiking.BindJSON hbody = .ok p →
      (updateHiking env param hbody s).response.status = 200 →
      (updateHiking env param hbody s).response.body = .hiking { p with ID := id }) ∧
    (∀ q, Observation.BindJSON obody = .ok q →
      (updateObservation env param obody s).response.status = 200 →
      (updateObservation env param obody s).response.body
        = .observation { q with ID := id }) := by
  constructor
  · intro p hp hst
    unfold updateHiking at hst ⊢
    simp only [hid, hp] at hst ⊢
    cases hup : UpdateOne Hiking.ID env.callErr s.hikingCollection id
        (Hiking.set { p with ID := id }) with
    | error e => simp [hup] at hst
    | ok coll => rfl
  · intro q hq hst
    unfold updateObservation at hst ⊢
    simp only [hid, hq] at hst ⊢
    cases hup : UpdateOne Observation.ID env.callErr s.observationCollection id
        (Observation.set { q with ID := id }) with
    | error e => simp [hup] at hst
    | ok coll => rfl

/-- An update of document 7 whose body names document 99 returns the document under 7. -/
theorem update_returns_path_id_witness :
    ObjectIDFromHex "000000000000000000000007" = .ok 7 ∧
    Hiking.BindJSON renameWithOtherId = .ok { Hiking.zero with ID := 99, Name := "New Mill" } ∧
    (updateHiking calm "000000000000000000000007" renameWithOtherId smallStore).response
      = ⟨200, .hiking { Hiking.zero with ID := 7, Name := "New Mill" }⟩ ∧
    Observation.BindJSON renameWithOtherId
      = .ok { Observation.zero with ID := 99, Name := "New Mill" } ∧
    (updateObservation calm "000000000000000000000007" renameWithOtherId smallStore).response.body
      = .observation { Observation.zero with ID := 7, Name := "New Mill" } :=
  have h := update_returns_path_id calm smallStore "000000000000000000000007" 7
    renameWithOtherId renameWithOtherId (by decide)
  ⟨by decide, by decide, by decide, by decide,
    h.2 { Observation.zero with ID := 99, Name := "New Mill" } (by decide) (by decide)⟩

/-- C3: a path identifier that is not twenty-four hexadecimal digits makes the read and
the delete handlers, of both resources, answer 400 with an error payload, call the
collection not at all, and leave the store as it was. -/
theorem malformed_id_is_rejected (env : Env) (s : Store) (param : String)
    (h : ¬ isHex24 param) :
    getAHiking env param s = ⟨⟨400, .error .invalidHex⟩, s, []⟩ ∧
    deleteHiking env param s = ⟨⟨400, .error .invalidHex⟩, s, []⟩ ∧
    getAnObservation env param s = ⟨⟨400, .error .invalidHex⟩, s, []⟩ ∧
    deleteObservation env param s = ⟨⟨400, .error .invalidHex⟩, s, []⟩ := by
  have he := ObjectIDFromHex_error param h
  simp only [getAHiking, deleteHiking, getAnObservation, deleteObservation, he, and_self]

/-- The path `0000000000000000000000zz` is twenty-four characters, two of them no digits. -/
theorem malformed_id_is_rejected_witness :
    ¬ isHex24 "0000000000000000000000zz" ∧
    deleteHiking calm "0000000000000000000000zz" smallStore
      = ⟨⟨400, .error .invalidHex⟩, smallStore, []⟩ :=
  ⟨by decide, (malformed_id_is_rejected calm smallStore "0000000000000000000000zz"
    (by decide)).2.1⟩

/-- C4, as the code has it: on an empty collection, the query and the reading of its
cursor succeeding, the list handler answers 200, never an error, the store is as it
was, and the body is the nil slice the handler declared: a sequence of no documents
that is written as the JSON value `null`; for both resources. -/
theorem list_of_empty_collection_is_nil (env : Env) (s : Store) (hcall : env.callErr = none)
    (hcur : env.cursorErr = none) :
    (s.hikingCollection = [] →
      getHikings env s = ⟨⟨200, .hikings .nil⟩, s, [.Find, .All]⟩ ∧
      ∀ text, Payload.json text (getHikings env s).response.body = JSON.null) ∧
    (s.observationCollection = [] →
      getObservations env s = ⟨⟨200, .observations .nil⟩, s, [.Find, .All]⟩ ∧
      ∀ text, Payload.json text (getObservations env s).response.body = JSON.null) := by
  constructor
  · intro h
    have h1 : getHikings env s = ⟨⟨200, .hikings .nil⟩, s, [.Find, .All]⟩ := by
      simp only [getHikings, Find, All, hcall, hcur, h]
    rw [h1]
    exact ⟨rfl, fun _ => rfl⟩
  · intro h
    have h1 : getObservations env s = ⟨⟨200, .observations .nil⟩, s, [.Find, .All]⟩ := by
      simp only [getObservations, Find, All, hcall, hcur, h]
    rw [h1]
    exact ⟨rfl, fun _ => rfl⟩

/-- Both lists of the empty store. -/
theorem list_of_empty_collection_is_nil_witness :
    calm.callErr = none ∧ calm.cursorErr = none ∧
    getHikings calm ⟨[], []⟩ = ⟨⟨200, .hikings .nil⟩, ⟨[], []⟩, [.Find, .All]⟩ ∧
    getObservations calm ⟨[], []⟩ = ⟨⟨200, .observations .nil⟩, ⟨[], []⟩, [.Find, .All]⟩ :=
  have h := list_of_empty_collection_is_nil calm ⟨[], []⟩ rfl rfl
  ⟨rfl, rfl, (h.1 rfl).1, (h.2 rfl).1⟩

/-- C4 as stated fails: on the empty store, the driver working, both list handlers
answer 200 with a body that is not the empty slice and is written as `null`, not as
the empty array. -/
theorem list_of_empty_collection_not_array :
    calm.callErr = none ∧ calm.cursorErr = none ∧
    (getHikings calm ⟨[], []⟩).response.status = 200 ∧
    (getHikings calm ⟨[], []⟩).response.body ≠ .hikings (.elems []) ∧
    Payload.json (fun _ => "") (getHikings calm ⟨[], []⟩).response.body = JSON.null ∧
    Payload.json (fun _ => "") (getHikings calm ⟨[], []⟩).response.body ≠ JSON.arr [] ∧
    (getObservations calm ⟨[], []⟩).response.status = 200 ∧
    (getObservations calm ⟨[], []⟩).response.body ≠ .observations (.elems []) ∧
    Payload.json (fun _ => "") (getObservations calm ⟨[], []⟩).response.body = JSON.null ∧
    Payload.json (fun _ => "") (getObservations calm ⟨[], []⟩).response.body ≠ JSON.arr [] :=
  ⟨rfl, rfl, by decide, by decide, rfl, fun h => JSON.noConfusion h, by decide, by decide,
    rfl, fun h => JSON.noConfusion h⟩

/-- C5: for a well-formed identifier that no document of the collection carries, the
driver working, the delete handler answers 200 with its confirmation message and the
store is as it was; a second delete of the same identifier gives the same outcome. -/
theorem delete_of_absent_id (env env' : Env) (s : Store) (param : String) (id : ObjectID)
    (hid : ObjectIDFromHex param = .ok id) (hcall : env.callErr = none)
    (hcall' : env'.callErr = none) :
    ((∀ d ∈ s.hikingCollection, d.ID ≠ id) →
      deleteHiking env param s = ⟨⟨200, .message "Hiking deleted"⟩, s, [.DeleteOne]⟩ ∧
      deleteHiking env' param (deleteHiking env param s).store = deleteHiking env param s) ∧
    ((∀ d ∈ s.observationCollection, d.ID ≠ id) →
      deleteObservation env param s
        = ⟨⟨200, .message "Observation deleted"⟩, s, [.DeleteOne]⟩ ∧
      deleteObservation env' param (deleteObservation env param s).store
        = deleteObservation env param s) := by
  constructor
  · intro h
    have he := eraseP_of_ne Hiking.ID s.hikingCollection id h
    have h1 : ∀ e : Env, e.callErr = none →
        deleteHiking e param s = ⟨⟨200, .message "Hiking deleted"⟩, s, [.DeleteOne]⟩ := by
      intro e hc
      simp only [deleteHiking, hid, DeleteOne, hc, he]
    rw [h1 env hcall]
    exact ⟨rfl, h1 env' hcall'⟩
  · intro h
    have he := eraseP_of_ne Observation.ID s.observationCollection id h
    have h1 : ∀ e : Env, e.callErr = none →
        deleteObservation e param s
          = ⟨⟨200, .message "Observation deleted"⟩, s, [.DeleteOne]⟩ := by
      intro e hc
      simp only [deleteObservation, hid, DeleteOne, hc, he]
    rw [h1 env hcall]
    exact ⟨rfl, h1 env' hcall'⟩

/-- No document of `smallStore` carries the identifier 99. -/
theorem delete_of_absent_id_witness :
    ObjectIDFromHex "000000000000000000000063" = .ok 99 ∧ calm.callErr = none ∧
    (∀ d ∈ smallStore.hikingCollection, d.ID ≠ 99) ∧
    deleteHiking calm "000000000000000000000063" smallStore
      = ⟨⟨200, .message "Hiking deleted"⟩, smallStore, [.DeleteOne]⟩ ∧
    (∀ d ∈ smallStore.observationCollection, d.ID ≠ 99) ∧
    deleteObservation calm "000000000000000000000063" smallStore
      = ⟨⟨200, .message "Observation deleted"⟩, smallStore, [.DeleteOne]⟩ :=
  have h := delete_of_absent_id calm calm smallStore "000000000000000000000063" 99
    (by decide) rfl rfl
  ⟨by decide, rfl, by decide, (h.1 (by decide)).1, by decide, (h.2 (by decide)).1⟩

/-- C7: a create whose body does not decode, and an update whose path identifier is
malformed (whatever its body) or whose body does not decode, are answered with 400 and
an error payload, call the collection not at all and leave the store as it was; for
hiking trips and for observations. -/
theorem bad_input_is_rejected (env : Env) (s : Store) (param : String) (body : Body) :
    (∀ err, Hiking.BindJSON body = .error err →
      createHiking env body s = ⟨⟨400, .error err⟩, s, []⟩) ∧
    (¬ isHex24 param → updateHiking env param body s = ⟨⟨400, .error .invalidHex⟩, s, []⟩) ∧
    (isHex24 param → ∀ err, Hiking.BindJSON body = .error err →
      updateHiking env param body s = ⟨⟨400, .error err⟩, s, []⟩) ∧
    (∀ err, Observation.BindJSON body = .error err →
      createObservation env body s = ⟨⟨400, .error err⟩, s, []⟩) ∧
    (¬ isHex24 param →
      updateObservation env param body s = ⟨⟨400, .error .invalidHex⟩, s, []⟩) ∧
    (isHex24 param → ∀ err, Observation.BindJSON body = .error err →
      updateObservation env param body s = ⟨⟨400, .error err⟩, s, []⟩) := by
  refine ⟨?_, ?_, ?_, ?_, ?_, ?_⟩
  · intro err h
    simp only [createHiking, h]
  · intro h
    simp only [updateHiking, ObjectIDFromHex_error param h]
  · intro h err hb
    obtain ⟨id, hid⟩ := (ObjectIDFromHex_ok_iff param).2 h
    simp only [updateHiking, hid, hb]
  · intro err h
    simp only [createObservation, h]
  · intro h
    simp only [updateObservation, ObjectIDFromHex_error param h]
  · intro h err hb
    obtain ⟨id, hid⟩ := (ObjectIDFromHex_ok_iff param).2 h
    simp only [updateObservation, hid, hb]

/-- A body with a string for `difficulty`, an unreadable body, and the path `7`. -/
theorem bad_input_is_rejected_witness :
    Hiking.BindJSON badDifficulty = .error .bind ∧
    createHiking calm badDifficulty smallStore = ⟨⟨400, .error .bind⟩, smallStore, []⟩ ∧
    isHex24 "000000000000000000000007" ∧
    updateHiking calm "000000000000000000000007" badDifficulty smallStore
      = ⟨⟨400, .error .bind⟩, smallStore, []⟩ ∧
    Observation.BindJSON .malformed = .error .bind ∧
    createObservation calm .malformed smallStore = ⟨⟨400, .error .bind⟩, smallStore, []⟩ ∧
    ¬ isHex24 "7" ∧
    updateObservation calm "7" heronSeen smallStore
      = ⟨⟨400, .error .invalidHex⟩, smallStore, []⟩ :=
  have h := bad_input_is_rejected calm smallStore "000000000000000000000007" badDifficulty
  ⟨by decide, h.1 _ (by decide), by decide, h.2.2.1 (by decide) _ (by decide), by decide,
    (bad_input_is_rejected calm smallStore "7" .malformed).2.2.2.1 _ (by decide), by decide,
    (bad_input_is_rejected calm smallStore "7" heronSeen).2.2.2.2.1 (by decide)⟩

/-- C8: a read of a well-formed identifier that no document carries is answered with 500
and an error payload, as a read during which the driver fails is; and a read is
answered with 200 exactly when its identifier is well-formed, the driver works and a
document of the collection carries the identifier; for both resources. -/
theorem get_of_absent_id (env : Env) (s : Store) (param : String) :
    (∀ id, ObjectIDFromHex param = .ok id → (∀ d ∈ s.hikingCollection, d.ID ≠ id) →
      (getAHiking env param s).response.status = 500 ∧
      ∃ err, (getAHiking env param s).response.body = .error err) ∧
    (∀ id err, ObjectIDFromHex param = .ok id → env.callErr = some err →
      (getAHiking env param s).response = ⟨500, .error err⟩) ∧
    ((getAHiking env param s).response.status = 200 ↔
      ∃ id, ObjectIDFromHex param = .ok id ∧ env.callErr = none ∧
        ∃ d ∈ s.hikingCollection, d.ID = id) ∧
    (∀ id, ObjectIDFromHex param = .ok id → (∀ d ∈ s.observationCollection, d.ID ≠ id) →
      (getAnObservation env param s).response.status = 500 ∧
      ∃ err, (getAnObservation env param s).response.body = .error err) ∧
    (∀ id err, ObjectIDFromHex param = .ok id → env.callErr = some err →
      (getAnObservation env param s).response = ⟨500, .error err⟩) ∧
    ((getAnObservation env param s).response.status = 200 ↔
      ∃ id, ObjectIDFromHex param = .ok id ∧ env.callErr = none ∧
        ∃ d ∈ s.observationCollection, d.ID = id) := by
  refine ⟨?_, ?_, ?_, ?_, ?_, ?_⟩
  · exact fun id hid hne => getAHiking_absent env s param id hid hne
  · intro id err hid hc
    simp only [getAHiking, FindOne, hid, hc]
  · unfold getAHiking FindOne
    cases hp : ObjectIDFromHex param with
    | error e => simp
    | ok id =>
      cases hc : env.callErr with
      | some e => simp
      | none =>
        simp only [Except.ok.injEq, exists_eq_left', true_and]
        rw [← find?_some_iff_exists Hiking.ID]
        cases hf : s.hikingCollection.find? (fun d => decide (d.ID = id)) <;> simp
  · exact fun id hid hne => getAnObservation_absent env s param id hid hne
  · intro id err hid hc
    simp only [getAnObservation, FindOne, hid, hc]
  · unfold getAnObservation FindOne
    cases hp : ObjectIDFromHex param with
    | error e => simp
    | ok id =>
      cases hc : env.callErr with
      | some e => simp
      | none =>
        simp only [Except.ok.injEq, exists_eq_left', true_and]
        rw [← find?_some_iff_exists Observation.ID]
        cases hf : s.observationCollection.find? (fun d => decide (d.ID = id)) <;> simp

/-- Reads of `smallStore`: of the absent 99, of 99 while the driver fails, of the present 7. -/
theorem get_of_absent_id_witness :
    ObjectIDFromHex "000000000000000000000063" = .ok 99 ∧
    (∀ d ∈ smallStore.hikingCollection, d.ID ≠ 99) ∧
    (getAHiking calm "000000000000000000000063" smallStore).response.status = 500 ∧
    (getAHiking offline "000000000000000000000063" smallStore).response
      = ⟨500, .error .driver⟩ ∧
    (getAHiking calm "000000000000000000000007" smallStore).response.status = 200 ∧
    (getAnObservation calm "000000000000000000000063" smallStore).response.status = 500 :=
  have h := get_of_absent_id calm smallStore "000000000000000000000063"
  ⟨by decide, by decide, (h.1 99 (by decide) (by decide)).1,
    (get_of_absent_id offline smallStore "000000000000000000000063").2.1 99 .driver
      (by decide) rfl,
    (get_of_absent_id calm smallStore "000000000000000000000007").2.2.1.2
      ⟨7, by decide, rfl, by decide⟩,
    (h.2.2.2.1 99 (by decide) (by decide)).1⟩

/-- C10: an update of a well-formed identifier that no document carries, with a body
that decodes to `p`, the driver working, is answered with 200 and `p` under the path
identifier, after one `UpdateOne` call that writes nothing: the store is as it was, and
a read of that identifier afterwards is answered with 500; for both resources. -/
theorem update_of_absent_id (env env' : Env) (s : Store) (param : String) (id : ObjectID)
    (body : Body) (hid : ObjectIDFromHex param = .ok id) (hcall : env.callErr = none) :
    (∀ p, Hiking.BindJSON body = .ok p → (∀ d ∈ s.hikingCollection, d.ID ≠ id) →
      updateHiking env param body s
        = ⟨⟨200, .hiking { p with ID := id }⟩, s, [.UpdateOne]⟩ ∧
      (getAHiking env' param (updateHiking env param body s).store).response.status = 500) ∧
    (∀ q, Observation.BindJSON body = .ok q → (∀ d ∈ s.observationCollection, d.ID ≠ id) →
      updateObservation env param body s
        = ⟨⟨200, .observation { q with ID := id }⟩, s, [.UpdateOne]⟩ ∧
      (getAnObservation env' param (updateObservation env param body s).store).response.status
        = 500) := by
  constructor
  · intro p hp hne
    have hu := applySet_of_ne Hiking.ID s.hikingCollection id (Hiking.set { p with ID := id }) hne
    have h1 : updateHiking env param body s
        = ⟨⟨200, .hiking { p with ID := id }⟩, s, [.UpdateOne]⟩ := by
      simp only [updateHiking, hid, hp, UpdateOne, hcall, hu]
    rw [h1]
    exact ⟨rfl, (getAHiking_absent env' s param id hid hne).1⟩
  · intro q hq hne
    have hu := applySet_of_ne Observation.ID s.observationCollection id
      (Observation.set { q with ID := id }) hne
    have h1 : updateObservation env param body s
        = ⟨⟨200, .observation { q with ID := id }⟩, s, [.UpdateOne]⟩ := by
      simp only [updateObservation, hid, hq, UpdateOne, hcall, hu]
    rw [h1]
    exact ⟨rfl, (getAnObservation_absent env' s param id hid hne).1⟩

/-- An update of the absent identifier 99 in `smallStore`. -/
theorem update_of_absent_id_witness :
    ObjectIDFromHex "000000000000000000000063" = .ok 99 ∧ calm.callErr = none ∧
    Hiking.BindJSON ridgeTrail = .ok ridgeTrailDoc ∧
    (∀ d ∈ smallStore.hikingCollection, d.ID ≠ 99) ∧
    updateHiking calm "000000000000000000000063" ridgeTrail smallStore
      = ⟨⟨200, .hiking { ridgeTrailDoc with ID := 99 }⟩, smallStore, [.UpdateOne]⟩ ∧
    (getAHiking calm "000000000000000000000063"
      (updateHiking calm "000000000000000000000063" ridgeTrail smallStore).store).response.status
      = 500 :=
  have h := update_of_absent_id calm calm smallStore "000000000000000000000063" 99 ridgeTrail
    (by decide) rfl
  ⟨by decide, rfl, by decide, by decide, (h.1 ridgeTrailDoc (by decide) (by decide)).1,
    (h.1 ridgeTrailDoc (by decide) (by decide)).2⟩

/-- C9: when an update of a well-formed identifier `id` carried by a document, with a
body that decodes to `p`, is answered with 200, exactly the first document carrying
`id` has been replaced by `p` under the identifier `id`, every other document of both
collections is as it was, and a read of `id` afterwards, the driver working, returns
`p` under `id`; a field no member of the body pairs with has its zero value in `p`; for
both resources. -/
theorem update_replaces_document (env env' : Env) (s : Store) (param : String) (id : ObjectID)
    (hid : ObjectIDFromHex param = .ok id) (hread : env'.callErr = none) :
    (∀ body p, Hiking.BindJSON body = .ok p → (∃ d ∈ s.hikingCollection, d.ID = id) →
      (updateHiking env param body s).response.status = 200 →
      (getAHiking env' param (updateHiking env param body s).store).response
        = ⟨200, .hiking { p with ID := id }⟩ ∧
      ∃ pre old post, s.hikingCollection = pre ++ old :: post ∧ old.ID = id ∧
        (∀ d ∈ pre, d.ID ≠ id) ∧
        (updateHiking env param body s).store
          = { s with hikingCollection := pre ++ { p with ID := id } :: post }) ∧
    (∀ ms p, Hiking.BindJSON (.object ms) = .ok p →
      (absent "name" ms → p.Name = "") ∧ (absent "location" ms → p.Location = "") ∧
      (absent "date" ms → p.Date = "") ∧ (absent "parking" ms → p.Parking = false) ∧
      (absent "length" ms → p.Length = "") ∧ (absent "difficulty" ms → p.Difficulty = 0) ∧
      (absent "description" ms → p.Description = "")) ∧
    (∀ body q, Observation.BindJSON body = .ok q →
      (∃ d ∈ s.observationCollection, d.ID = id) →
      (updateObservation env param body s).response.status = 200 →
      (getAnObservation env' param (updateObservation env param body s).store).response
        = ⟨200, .observation { q with ID := id }⟩ ∧
      ∃ pre old post, s.observationCollection = pre ++ old :: post ∧ old.ID = id ∧
        (∀ d ∈ pre, d.ID ≠ id) ∧
        (updateObservation env param body s).store
          = { s with observationCollection := pre ++ { q with ID := id } :: post }) ∧
    (∀ ms q, Observation.BindJSON (.object ms) = .ok q →
      (absent "hiking_id" ms → q.HikingId = "") ∧ (absent "name" ms → q.Name = "") ∧
      (absent "comment" ms → q.Comment = "") ∧ (absent "time" ms → q.Time = "")) := by
  refine ⟨?_, ?_, ?_, ?_⟩
  · intro body p hp hex hst
    obtain ⟨pre, old, post, hsplit, hold, hpre, happ⟩ :=
      applySet_first Hiking.ID s.hikingCollection id (Hiking.set { p with ID := id })
        (fun _ => rfl) hex
    unfold updateHiking at hst ⊢
    simp only [hid, hp, UpdateOne] at hst ⊢
    cases hc : env.callErr with
    | some e => simp [hc] at hst
    | none =>
      simp only [happ, hiking_set_eq]
      refine ⟨?_, pre, old, post, hsplit, hold, hpre, rfl⟩
      have hf := find?_first Hiking.ID pre post { p with ID := id } id hpre rfl
      simp only [getAHiking, hid, FindOne, hread, hf]
  · intro ms p hp
    have f := hiking_decodeMembers_frame ms Hiking.zero p hp
    exact ⟨f.2.1, f.2.2.1, f.2.2.2.1, f.2.2.2.2.1, f.2.2.2.2.2.1, f.2.2.2.2.2.2.1,
      f.2.2.2.2.2.2.2⟩
  · intro body q hq hex hst
    obtain ⟨pre, old, post, hsplit, hold, hpre, happ⟩ :=
      applySet_first Observation.ID s.observationCollection id
        (Observation.set { q with ID := id }) (fun _ => rfl) hex
    unfold updateObservation at hst ⊢
    simp only [hid, hq, UpdateOne] at hst ⊢
    cases hc : env.callErr with
    | some e => simp [hc] at hst
    | none =>
      simp only [happ, observation_set_eq]
      refine ⟨?_, pre, old, post, hsplit, hold, hpre, rfl⟩
      have hf := find?_first Observation.ID pre post { q with ID := id } id hpre rfl
      simp only [getAnObservation, hid, FindOne, hread, hf]
  · intro ms q hq
    have f := observation_decodeMembers_frame ms Observation.zero q hq
    exact ⟨f.2.1, f.2.2.1, f.2.2.2.1, f.2.2.2.2⟩

/-- Document 7 of `smallStore` replaced: the fields the body leaves out are zero afterwards. -/
theorem update_replaces_document_witness :
    ObjectIDFromHex "000000000000000000000007" = .ok 7 ∧ calm.callErr = none ∧
    Hiking.BindJSON renameWithOtherId = .ok { Hiking.zero with ID := 99, Name := "New Mill" } ∧
    (∃ d ∈ smallStore.hikingCollection, d.ID = 7) ∧
    (updateHiking calm "000000000000000000000007" renameWithOtherId smallStore).response.status
      = 200 ∧
    (getAHiking calm "000000000000000000000007"
      (updateHiking calm "000000000000000000000007" renameWithOtherId smallStore).store).response
      = ⟨200, .hiking { Hiking.zero with ID := 7, Name := "New Mill" }⟩ ∧
    (updateHiking calm "000000000000000000000007" renameWithOtherId smallStore).store
      = { smallStore with
          hikingCollection := [{ Hiking.zero with ID := 7, Name := "New Mill" }] } :=
  have h := update_replaces_document calm calm smallStore "000000000000000000000007" 7
    (by decide) rfl
  ⟨by decide, rfl, by decide, by decide, by decide,
    (h.1 renameWithOtherId { Hiking.zero with ID := 99, Name := "New Mill" } (by decide)
      (by decide) (by decide)).1, by decide⟩

/-- C6, as the code has it: two update bodies that differ only in their `_id` members,
each `_id` value being one the identifier type decodes, get the same response and leave
the same store, for every path identifier; a body with an `_id` value that does not
decode is answered with 400 and nothing is written; for both resources. -/
theorem update_body_id_is_overridden (env : Env) (s : Store) (param : String)
    (b1 b2 : List Member) (hsame : dropId b1 = dropId b2) :
    ((∀ m ∈ b1, isIdKey m = true → decodesAsId m = true) →
      (∀ m ∈ b2, isIdKey m = true → decodesAsId m = true) →
      updateHiking env param (.object b1) s = updateHiking env param (.object b2) s ∧
      updateObservation env param (.object b1) s
        = updateObservation env param (.object b2) s) ∧
    ((∃ m ∈ b1, isIdKey m = true ∧ decodesAsId m = false) →
      (∃ err, updateHiking env param (.object b1) s = ⟨⟨400, .error err⟩, s, []⟩) ∧
      (∃ err, updateObservation env param (.object b1) s = ⟨⟨400, .error err⟩, s, []⟩)) := by
  constructor
  · intro h1 h2
    exact ⟨updateHiking_congr env s param _ _
        (fun x => hiking_BindJSON_dropId x b1 b2 hsame h1 h2),
      updateObservation_congr env s param _ _
        (fun x => observation_BindJSON_dropId x b1 b2 hsame h1 h2)⟩
  · intro hbad
    constructor
    · obtain ⟨e, he⟩ := decodeMembers_error_of_bad_id Hiking.decodeMember
        (fun a m hk hd => by
          obtain ⟨e, he⟩ := UnmarshalJSON_error_of_not_decodesAsId a.ID m hd
          exact ⟨e, by rw [hiking_decodeMember_id a m hk, he]; rfl⟩)
        b1 Hiking.zero hbad
      unfold updateHiking
      cases hp : ObjectIDFromHex param with
      | error e' => exact ⟨e', rfl⟩
      | ok id => exact ⟨e, by simp only [Hiking.BindJSON, he]⟩
    · obtain ⟨e, he⟩ := decodeMembers_error_of_bad_id Observation.decodeMember
        (fun a m hk hd => by
          obtain ⟨e, he⟩ := UnmarshalJSON_error_of_not_decodesAsId a.ID m hd
          exact ⟨e, by rw [observation_decodeMember_id a m hk, he]; rfl⟩)
        b1 Observation.zero hbad
      unfold updateObservation
      cases hp : ObjectIDFromHex param with
      | error e' => exact ⟨e', rfl⟩
      | ok id => exact ⟨e, by simp only [Observation.BindJSON, he]⟩

/-- The body `renameOnly` with and without a decodable `_ID` member. -/
theorem update_body_id_is_overridden_witness :
    dropId renameWithGoodId = dropId renameOnly ∧
    (∀ m ∈ renameWithGoodId, isIdKey m = true → decodesAsId m = true) ∧
    (∀ m ∈ renameOnly, isIdKey m = true → decodesAsId m = true) ∧
    updateHiking calm "000000000000000000000007" (.object renameWithGoodId) smallStore
      = updateHiking calm "000000000000000000000007" (.object renameOnly) smallStore ∧
    (updateHiking calm "000000000000000000000007" (.object renameOnly) smallStore).response
      = ⟨200, .hiking { Hiking.zero with ID := 7, Name := "New Mill" }⟩ :=
  have h := update_body_id_is_overridden calm smallStore "000000000000000000000007"
    renameWithGoodId renameOnly rfl
  ⟨rfl, by decide, by decide, (h.1 (by decide) (by decide)).1, by decide⟩

/-- C6 as stated fails: the body `{"_id": "zz", "name": "New Mill"}` and the body
`{"name": "New Mill"}` differ only in the `_id` member, the path identifier is
well-formed, and the update answers 400 to the first, writing nothing, and 200 to the
second, replacing the document. -/
theorem update_body_id_not_ignored :
    ObjectIDFromHex "000000000000000000000007" = .ok 7 ∧
    dropId renameWithBadId = dropId renameOnly ∧
    updateHiking calm "000000000000000000000007" (.object renameWithBadId) smallStore
      = ⟨⟨400, .error .bind⟩, smallStore, []⟩ ∧
    (updateHiking calm "000000000000000000000007" (.object renameOnly) smallStore).response
      = ⟨200, .hiking { Hiking.zero with ID := 7, Name := "New Mill" }⟩ ∧
    (updateHiking calm "000000000000000000000007" (.object renameOnly) smallStore).store
      ≠ smallStore ∧
    updateObservation calm "000000000000000000000009" (.object renameWithBadId) smallStore
      ≠ updateObservation calm "000000000000000000000009" (.object renameOnly) smallStore :=
  ⟨by decide, rfl, by decide, by decide, by decide, by decide⟩

end DartBackend
